import Mathlib

/-!
Shallow embedding of the pi-nes host-side NES core wrapper and session loop.

The embedded code is `extensions/nes/nes-core.ts` (class `JsnesCore`), the
native-core wrapper variant (`NativeNesCore`), the half-block renderer in
`extensions/nes/nes-component.ts`, and the frame-pacing accounting of
`extensions/nes/nes-session.ts` (class `NesSession`).

The jsnes emulator object (`this.nes`) is an external npm dependency and the
Rust emulation core is a vendored native addon; neither is TypeScript source
of this repository.  Both are therefore treated as an opaque component of the
state: every wrapper operation that calls into the emulator is parametrised
over the emulator's behaviour (`EmuOps`), and the callbacks the emulator may
fire during `nes.frame()` are captured as an explicit event list.  Where a
claim depends on the emulator's own behaviour (controller shift register,
deterministic stepping) that behaviour is modelled from the specification and
marked as such on the definition.
-/

namespace PiNes

/-- Constants from `nes-core.ts` lines 7-10. -/
def FRAME_WIDTH : Nat := 256

/-- Frame height in pixels (`nes-core.ts` line 8). -/
def FRAME_HEIGHT : Nat := 240

/-- Size of the jsnes framebuffer array: one entry per pixel
(`nes-core.ts` line 9: `FRAME_WIDTH * FRAME_HEIGHT`). -/
def FRAMEBUFFER_SIZE : Nat := FRAME_WIDTH * FRAME_HEIGHT

/-- Battery RAM size in bytes (`nes-core.ts` line 10: `0x2000`). -/
def SRAM_SIZE : Nat := 0x2000

/-- The eight NES controller buttons (`NesButton` union type in
`nes-core.ts` line 16). -/
inductive NesButton where
  | up | down | left | right | a | b | start | select
deriving DecidableEq, Repr

/-- Callback events the jsnes emulator can fire into the wrapper while
`nes.frame()` runs: `onFrame(framebuffer24)` and
`onBatteryRamWrite(address, value)` (`nes-core.ts` lines 153-167). -/
inductive EmuEvent where
  | batteryWrite (address value : Nat)
  | newFrame (buffer : List Nat)

/-- Behaviour of the external jsnes emulator object, abstracted over its
internal state type `α`.  `load` returns the post-call emulator state and
`some battery` on success (the `nes.rom.batteryRam` flag) or `none` when
`nes.loadROM` throws on malformed input; `loadBatteryRam` models
`nes.rom.batteryRam = sram; nes.mmap.loadBatteryRam()`; `frame` models
`nes.frame()` returning the post-state and the callback events it fired;
`reset` models `nes.reset()`, which re-initialises CPU/PPU/APU internals and
invokes no host callback; `buttonDown`/`buttonUp` model
`nes.buttonDown(1, k)` / `nes.buttonUp(1, k)`.  All fields are Lean
functions, hence deterministic, matching spec §5 ("single-threaded and
deterministic ... no I/O during stepping"). -/
structure EmuOps (α : Type) where
  load : α → List Nat → α × Option Bool
  loadBatteryRam : α → List Nat → α
  frame : α → α × List EmuEvent
  reset : α → α
  buttonDown : α → Nat → α
  buttonUp : α → Nat → α

/-- Mutable fields of `class JsnesCore` (`nes-core.ts` lines 138-145), with
the opaque jsnes instance as component `emu`.  Audio fields are omitted:
no claim mentions them and they never feed back into these fields. -/
structure CoreState (α : Type) where
  emu : α
  frameBuffer : List Nat
  sram : Option (List Nat)
  hasBatteryRam : Bool
  sramDirty : Bool

/-- Constructor state of `new JsnesCore(false)`: framebuffer pre-filled with
zeroes (`new Array(FRAMEBUFFER_SIZE).fill(0)`, line 140), `sram = null`,
`hasBatteryRam = false`, `sramDirty = false` (lines 141-143). -/
def freshCore (emu0 : α) : CoreState α where
  emu := emu0
  frameBuffer := List.replicate FRAMEBUFFER_SIZE 0
  sram := none
  hasBatteryRam := false
  sramDirty := false

/-- The private `handleBatteryRamWrite(address, value)` callback handler
(`nes-core.ts` lines 242-252).  The source computes a signed
`offset = address - 0x6000` and returns when `offset < 0 || offset >=
this.sram.length`; with `Nat` subtraction the explicit `address < 0x6000`
disjunct encodes the signed lower-bound test.  `value & 0xff` is `% 256`. -/
def handleBatteryRamWrite (st : CoreState α) (address value : Nat) : CoreState α :=
  if !st.hasBatteryRam then st
  else
    match st.sram with
    | none => st
    | some l =>
      if address < 0x6000 ∨ l.length ≤ address - 0x6000 then st
      else { st with sram := some (l.set (address - 0x6000) (value % 256)), sramDirty := true }

/-- `loadRom(rom)` (`nes-core.ts` lines 170-186).  The first statement calls
`nes.loadROM`, which may throw; on a throw no wrapper field has been
assigned yet, so the method returns the original field state together with
`false` (exception propagated).  On success `hasBatteryRam` is set from the
parsed ROM; for a battery cartridge an existing SRAM buffer is kept
(otherwise a zero-filled buffer of `SRAM_SIZE` is allocated), handed to the
emulator, and the dirty flag cleared; otherwise SRAM is dropped and the
dirty flag cleared. -/
def loadRom (ops : EmuOps α) (st : CoreState α) (rom : List Nat) : CoreState α × Bool :=
  match ops.load st.emu rom with
  | (emu1, none) => ({ st with emu := emu1 }, false)
  | (emu1, some battery) =>
    if battery then
      let buf := st.sram.getD (List.replicate SRAM_SIZE 0)
      ({ st with emu := ops.loadBatteryRam emu1 buf
                 hasBatteryRam := true
                 sram := some buf
                 sramDirty := false }, true)
    else
      ({ st with emu := emu1, hasBatteryRam := false, sram := none, sramDirty := false }, true)

/-- Folding one emulator callback into the wrapper state: `onFrame` replaces
the cached framebuffer (`nes-core.ts` lines 154-156), `onBatteryRamWrite`
runs `handleBatteryRamWrite` (lines 164-166). -/
def applyEvent (st : CoreState α) : EmuEvent → CoreState α
  | .newFrame buf => { st with frameBuffer := buf }
  | .batteryWrite address value => handleBatteryRamWrite st address value

/-- `tick()` (`nes-core.ts` lines 188-190): runs `nes.frame()`, which
advances the emulator and fires its callbacks into the wrapper. -/
def tick (ops : EmuOps α) (st : CoreState α) : CoreState α :=
  let stepped := ops.frame st.emu
  stepped.2.foldl applyEvent { st with emu := stepped.1 }

/-- `getFrameBuffer()` (`nes-core.ts` lines 192-194). -/
def getFrameBuffer (st : CoreState α) : List Nat :=
  st.frameBuffer

/-- `getSram()` (`nes-core.ts` lines 205-207):
`this.hasBatteryRam ? this.sram : null`. -/
def getSram (st : CoreState α) : Option (List Nat) :=
  if st.hasBatteryRam then st.sram else none

/-- `setSram(sram)` (`nes-core.ts` lines 209-220): no-op without battery RAM;
otherwise copies `sram.subarray(0, this.sram.length)` over the front of the
(possibly freshly allocated zero-filled) buffer, re-installs it in the
emulator, and clears the dirty flag. -/
def setSram (ops : EmuOps α) (st : CoreState α) (s : List Nat) : CoreState α :=
  if !st.hasBatteryRam then st
  else
    let cur := st.sram.getD (List.replicate SRAM_SIZE 0)
    let src := s.take cur.length
    let buf := src ++ cur.drop src.length
    { st with emu := ops.loadBatteryRam st.emu buf, sram := some buf, sramDirty := false }

/-- `isSramDirty()` (`nes-core.ts` lines 222-224):
`this.hasBatteryRam && this.sramDirty`. -/
def isSramDirty (st : CoreState α) : Bool :=
  st.hasBatteryRam && st.sramDirty

/-- `markSramSaved()` (`nes-core.ts` lines 226-228). -/
def markSramSaved (st : CoreState α) : CoreState α :=
  { st with sramDirty := false }

/-- `reset()` (`nes-core.ts` lines 234-236): the body is exactly
`this.nes.reset()`, which mutates only the emulator object and fires no
host callback, so no other wrapper field is touched. -/
def resetCore (ops : EmuOps α) (st : CoreState α) : CoreState α :=
  { st with emu := ops.reset st.emu }

/-! Controller buttons.  `nes-core.ts` maps button names through the jsnes
`Controller.BUTTON_*` constants; `NATIVE_BUTTON_MAP` in the native-core
wrapper maps them to the native addon's integer protocol. -/

/-- Button constants exported by the jsnes dependency's `Controller` class
(its documented public API; `nes-core.ts` lines 36-45 reference them
symbolically). -/
def Controller.BUTTON_A : Nat := 0

/-- jsnes `Controller.BUTTON_B`. -/
def Controller.BUTTON_B : Nat := 1

/-- jsnes `Controller.BUTTON_SELECT`. -/
def Controller.BUTTON_SELECT : Nat := 2

/-- jsnes `Controller.BUTTON_START`. -/
def Controller.BUTTON_START : Nat := 3

/-- jsnes `Controller.BUTTON_UP`. -/
def Controller.BUTTON_UP : Nat := 4

/-- jsnes `Controller.BUTTON_DOWN`. -/
def Controller.BUTTON_DOWN : Nat := 5

/-- jsnes `Controller.BUTTON_LEFT`. -/
def Controller.BUTTON_LEFT : Nat := 6

/-- jsnes `Controller.BUTTON_RIGHT`. -/
def Controller.BUTTON_RIGHT : Nat := 7

/-- `BUTTON_MAP` (`nes-core.ts` lines 36-45), in source order. -/
def BUTTON_MAP : NesButton → Nat
  | .up => Controller.BUTTON_UP
  | .down => Controller.BUTTON_DOWN
  | .left => Controller.BUTTON_LEFT
  | .right => Controller.BUTTON_RIGHT
  | .a => Controller.BUTTON_A
  | .b => Controller.BUTTON_B
  | .start => Controller.BUTTON_START
  | .select => Controller.BUTTON_SELECT

/-- `NATIVE_BUTTON_MAP` of the native-core wrapper variant of `nes-core.ts`
(src/unnamed/part_015 lines 93-102), in source order. -/
def NATIVE_BUTTON_MAP : NesButton → Nat
  | .select => 0
  | .start => 1
  | .a => 2
  | .b => 3
  | .up => 4
  | .down => 5
  | .left => 6
  | .right => 7

/-- Modelled from the spec: bit positions of the standard-controller shift
register, "bit order: A, B, Select, Start, Up, Down, Left, Right for
controller 1" (spec §6), A lowest.  The register itself lives in the
emulation core (jsnes internals / the vendored Rust addon), which is not
among the TypeScript sources. -/
def buttonBitIndex : NesButton → Nat
  | .a => 0
  | .b => 1
  | .select => 2
  | .start => 3
  | .up => 4
  | .down => 5
  | .left => 6
  | .right => 7

/-- Modelled from the spec: the controller-1 shift register as a predicate on
bit positions. -/
def JoypadState : Type := Nat → Bool

/-- Modelled from the spec: asserting one bit of the shift register
(jsnes `buttonDown(1, k)` sets the state slot read back at shift
position `k`). -/
def joypadPress (reg : JoypadState) (k : Nat) : JoypadState :=
  fun j => if j = k then true else reg j

/-- Modelled from the spec: clearing one bit of the shift register. -/
def joypadRelease (reg : JoypadState) (k : Nat) : JoypadState :=
  fun j => if j = k then false else reg j

/-- `setButton(button, pressed)` of `JsnesCore` (`nes-core.ts` lines
196-203), observed at the controller-1 shift register: the pressed button is
routed through `BUTTON_MAP` into `nes.buttonDown(1, mapped)` /
`nes.buttonUp(1, mapped)`, which asserts/clears shift-register bit
`mapped`. -/
def jsnesSetButton (reg : JoypadState) (btn : NesButton) (pressed : Bool) : JoypadState :=
  if pressed then joypadPress reg (BUTTON_MAP btn) else joypadRelease reg (BUTTON_MAP btn)

/-- Modelled from the spec: the native addon's button-index protocol,
documented in the repository as "0=select, 1=start, 2=A, 3=B, 4-7=dpad"
(AGENTS.md, src/unnamed/part_003); the addon's Rust source is not among
the TypeScript sources. -/
def nativeButtonOfIndex : Nat → Option NesButton
  | 0 => some .select
  | 1 => some .start
  | 2 => some .a
  | 3 => some .b
  | 4 => some .up
  | 5 => some .down
  | 6 => some .left
  | 7 => some .right
  | _ => none

/-- Modelled from the spec: native `pressButton(n)` decodes `n` per the
documented index protocol and asserts that button's shift-register bit at
its spec-mandated position. -/
def nativePressButton (reg : JoypadState) (i : Nat) : JoypadState :=
  match nativeButtonOfIndex i with
  | some btn => joypadPress reg (buttonBitIndex btn)
  | none => reg

/-- Modelled from the spec: native `releaseButton(n)`. -/
def nativeReleaseButton (reg : JoypadState) (i : Nat) : JoypadState :=
  match nativeButtonOfIndex i with
  | some btn => joypadRelease reg (buttonBitIndex btn)
  | none => reg

/-- `setButton(button, pressed)` of `NativeNesCore` (src/unnamed/part_015
lines 137-144), observed at the controller-1 shift register. -/
def nativeSetButton (reg : JoypadState) (btn : NesButton) (pressed : Bool) : JoypadState :=
  if pressed then nativePressButton reg (NATIVE_BUTTON_MAP btn)
  else nativeReleaseButton reg (NATIVE_BUTTON_MAP btn)

/-! Framebuffer pixel format.  The jsnes-backed framebuffer holds one number
per pixel; `renderHalfBlock` in `nes-component.ts` decodes it. -/

/-- Color-component extraction performed by `renderHalfBlock`
(`nes-component.ts` lines 29-34): `r = (c >> 16) & 0xff`,
`g = (c >> 8) & 0xff`, `b = c & 0xff`. -/
def rgbOfPacked (c : Nat) : Nat × Nat × Nat :=
  ((c >>> 16) &&& 0xff, (c >>> 8) &&& 0xff, c &&& 0xff)

/-- The 24-bit packed pixel layout that `renderHalfBlock` decodes: red in
bits 16-23, green in bits 8-15, blue in bits 0-7. -/
def packedOfRgb (r g bl : Nat) : Nat :=
  r * 2 ^ 16 + g * 2 ^ 8 + bl

/-! Session frame pacing, from `nes-session.ts`. -/

/-- `DEFAULT_MAX_CATCH_UP_FRAMES` (`nes-session.ts` line 8). -/
def DEFAULT_MAX_CATCH_UP_FRAMES : Int := 12

/-- `DEFAULT_FRAME_INTERVAL_MS` (`nes-session.ts` line 5: `1000 / 60`).
Times are modelled as rationals. -/
def DEFAULT_FRAME_INTERVAL_MS : ℚ := 1000 / 60

/-- The frame-pacing accounting of one `NesSession.tick()` invocation
(`nes-session.ts` lines 93-113): with `delta` the elapsed time since the
last tick, the accumulator grows by `delta`; `framesDue` is
`Math.floor(accumulatedTime / frameIntervalMs)`; if no frame is due the
tick returns early, if more than `maxCatchUpFrames` are due only
`maxCatchUpFrames` run and the accumulator is cleared, otherwise all due
frames run and their intervals are subtracted.  The result is the new
accumulator and the number of `core.tick()` calls made by the loop at
lines 111-113. -/
def sessionTick (frameIntervalMs : ℚ) (maxCatchUpFrames : Int) (accumulatedTime delta : ℚ) :
    ℚ × Int :=
  let acc := accumulatedTime + delta
  let framesDue : Int := ⌊acc / frameIntervalMs⌋
  if framesDue ≤ 0 then (acc, 0)
  else if maxCatchUpFrames < framesDue then ((0 : ℚ), maxCatchUpFrames)
  else (acc - (framesDue : ℚ) * frameIntervalMs, framesDue)

/-! Concrete instances used by closed theorems: an emulator behaviour over
`Unit` whose load always succeeds with a battery cartridge, and one whose
load always throws. -/

/-- Trivial emulator behaviour: loading succeeds and reports a battery-backed
cartridge; stepping fires no callback. -/
def unitOps : EmuOps Unit where
  load := fun _ _ => ((), some true)
  loadBatteryRam := fun _ _ => ()
  frame := fun _ => ((), [])
  reset := fun _ => ()
  buttonDown := fun _ _ => ()
  buttonUp := fun _ _ => ()

/-- Emulator behaviour whose `loadROM` always throws. -/
def unitOpsFail : EmuOps Unit where
  load := fun e _ => (e, none)
  loadBatteryRam := fun _ _ => ()
  frame := fun _ => ((), [])
  reset := fun _ => ()
  buttonDown := fun _ _ => ()
  buttonUp := fun _ _ => ()

/-- A reachable core state with a battery cartridge and a dirty SRAM flag:
fresh core, battery ROM loaded, one in-window battery write. -/
def dirtyBatteryState : CoreState Unit :=
  handleBatteryRamWrite (loadRom unitOps (freshCore ()) []).1 0x6000 1

/-- Fold a list of battery-RAM write callbacks into the wrapper state. -/
def writeMany (st : CoreState α) (ws : List (Nat × Nat)) : CoreState α :=
  ws.foldl (fun s w => handleBatteryRamWrite s w.1 w.2) st

/-- Host-driven commands of the core interface used by the determinism
statement. -/
inductive CoreCmd where
  | tickCmd
  | press (btn : NesButton)
  | release (btn : NesButton)
  | resetCmd

/-- Run one host command against the core state. -/
def runCmd (ops : EmuOps α) (st : CoreState α) : CoreCmd → CoreState α
  | .tickCmd => tick ops st
  | .press btn => { st with emu := ops.buttonDown st.emu (BUTTON_MAP btn) }
  | .release btn => { st with emu := ops.buttonUp st.emu (BUTTON_MAP btn) }
  | .resetCmd => resetCore ops st

/-- Run a command sequence against the core state. -/
def runCmds (ops : EmuOps α) (st : CoreState α) (cmds : List CoreCmd) : CoreState α :=
  cmds.foldl (runCmd ops) st

/-- Invariant: any allocated SRAM buffer has exactly `SRAM_SIZE` bytes. -/
def sramSized (st : CoreState α) : Prop :=
  ∀ l, st.sram = some l → l.length = SRAM_SIZE

/-! Helper lemmas about the battery-write handler and event folding. -/

lemma handleBatteryRamWrite_hasBattery (st : CoreState α) (a v : Nat) :
    (handleBatteryRamWrite st a v).hasBatteryRam = st.hasBatteryRam := by
  unfold handleBatteryRamWrite
  split
  · rfl
  split
  · rfl
  split
  · rfl
  · rfl

lemma handleBatteryRamWrite_dirty_mono (st : CoreState α) (a v : Nat)
    (h : st.sramDirty = true) : (handleBatteryRamWrite st a v).sramDirty = true := by
  unfold handleBatteryRamWrite
  split
  · exact h
  split
  · exact h
  split
  · exact h
  · rfl

lemma handleBatteryRamWrite_sramSized (st : CoreState α) (a v : Nat)
    (h : sramSized st) : sramSized (handleBatteryRamWrite st a v) := by
  unfold handleBatteryRamWrite
  split
  · exact h
  split
  · exact h
  split
  · exact h
  · intro l2 h2
    rename_i l heq hcond
    simp only [CoreState.mk.injEq] at h2 ⊢
    have : l2 = l.set (a - 0x6000) (v % 256) := by
      cases h2
      rfl
    subst this
    rw [List.length_set]
    exact h l heq

lemma applyEvent_dirty (st : CoreState α) (e : EmuEvent)
    (h : isSramDirty st = true) : isSramDirty (applyEvent st e) = true := by
  cases e with
  | newFrame buf => exact h
  | batteryWrite a v =>
    have hb : st.hasBatteryRam = true := by
      have := h
      unfold isSramDirty at this
      exact (Bool.and_eq_true _ _ |>.mp this).1
    have hd : st.sramDirty = true := by
      have := h
      unfold isSramDirty at this
      exact (Bool.and_eq_true _ _ |>.mp this).2
    unfold isSramDirty applyEvent
    rw [handleBatteryRamWrite_hasBattery, hb, handleBatteryRamWrite_dirty_mono st a v hd]
    rfl

lemma foldl_applyEvent_dirty (evs : List EmuEvent) :
    ∀ st : CoreState α, isSramDirty st = true →
      isSramDirty (evs.foldl applyEvent st) = true := by
  induction evs with
  | nil => intro st h; exact h
  | cons e evs ih =>
    intro st h
    exact ih (applyEvent st e) (applyEvent_dirty st e h)

lemma BUTTON_MAP_eq_buttonBitIndex (btn : NesButton) :
    BUTTON_MAP btn = buttonBitIndex btn := by
  cases btn <;> rfl

lemma nativeButtonOfIndex_encode (btn : NesButton) :
    nativeButtonOfIndex (NATIVE_BUTTON_MAP btn) = some btn := by
  cases btn <;> rfl

lemma setSram_getSram (ops : EmuOps α) (st : CoreState α) (s : List Nat)
    (hb : st.hasBatteryRam = true) (hsz : sramSized st) (hs : s.length = SRAM_SIZE) :
    getSram (setSram ops st s) = some s := by
  have hcur : (st.sram.getD (List.replicate SRAM_SIZE 0)).length = SRAM_SIZE := by
    cases h : st.sram with
    | none => simp
    | some l => simpa using hsz l h
  unfold setSram getSram
  rw [hb]
  simp only [Bool.not_true, Bool.false_eq_true, if_false, if_true]
  have htake : s.take (st.sram.getD (List.replicate SRAM_SIZE 0)).length = s := by
    rw [hcur, ← hs]
    exact List.take_length s
  rw [htake]
  have hdrop : (st.sram.getD (List.replicate SRAM_SIZE 0)).drop s.length = [] := by
    refine List.drop_eq_nil_of_le ?_
    rw [hcur, hs]
  rw [hdrop, List.append_nil]

lemma writeMany_hasBattery (ws : List (Nat × Nat)) :
    ∀ st : CoreState α, (writeMany st ws).hasBatteryRam = st.hasBatteryRam := by
  induction ws with
  | nil => intro st; rfl
  | cons w ws ih =>
    intro st
    calc (writeMany (handleBatteryRamWrite st w.1 w.2) ws).hasBatteryRam
        = (handleBatteryRamWrite st w.1 w.2).hasBatteryRam := ih _
      _ = st.hasBatteryRam := handleBatteryRamWrite_hasBattery st w.1 w.2

lemma writeMany_sramSized (ws : List (Nat × Nat)) :
    ∀ st : CoreState α, sramSized st → sramSized (writeMany st ws) := by
  induction ws with
  | nil => intro st h; exact h
  | cons w ws ih =>
    intro st h
    exact ih _ (handleBatteryRamWrite_sramSized st w.1 w.2 h)

lemma dirty_after_window_write (st : CoreState α) (l : List Nat)
    (hb : st.hasBatteryRam = true) (hs : st.sram = some l) (hl : l.length = SRAM_SIZE)
    (address value : Nat) (h1 : 0x6000 ≤ address) (h2 : address ≤ 0x7FFF) :
    isSramDirty (handleBatteryRamWrite st address value) = true := by
  have hcond : ¬ (address < 0x6000 ∨ l.length ≤ address - 0x6000) := by
    push_neg
    constructor
    · omega
    · rw [hl]; unfold SRAM_SIZE; omega
  unfold handleBatteryRamWrite
  rw [hb, hs]
  simp only [Bool.not_true, Bool.false_eq_true, if_false, hcond, isSramDirty]
  rfl

lemma isSramDirty_markSramSaved (st : CoreState α) :
    isSramDirty (markSramSaved st) = false := by
  unfold isSramDirty markSramSaved
  exact Bool.and_false _

lemma isSramDirty_setSram (ops : EmuOps α) (st : CoreState α) (s : List Nat)
    (hb : st.hasBatteryRam = true) : isSramDirty (setSram ops st s) = false := by
  unfold setSram isSramDirty
  rw [hb]
  simp

lemma fresh_loaded_sram :
    (loadRom unitOps (freshCore ()) []).1.sram = some (List.replicate SRAM_SIZE 0) := rfl

lemma fresh_loaded_battery :
    (loadRom unitOps (freshCore ()) []).1.hasBatteryRam = true := rfl

lemma fresh_loaded_sramSized : sramSized (loadRom unitOps (freshCore ()) []).1 := by
  intro l hl
  rw [fresh_loaded_sram, Option.some.injEq] at hl
  rw [← hl]
  simp

lemma dirtyBatteryState_hasBattery : dirtyBatteryState.hasBatteryRam = true := by
  unfold dirtyBatteryState
  rw [handleBatteryRamWrite_hasBattery]
  rfl

lemma dirtyBatteryState_dirty : isSramDirty dirtyBatteryState = true := by
  unfold dirtyBatteryState
  exact dirty_after_window_write (loadRom unitOps (freshCore ()) []).1
    (List.replicate SRAM_SIZE 0) fresh_loaded_battery fresh_loaded_sram (by simp)
    0x6000 1 (by decide) (by decide)

/-! Theorems settling the claims. -/

/-- C1: for a loaded battery-backed cartridge (battery flag set, an SRAM
buffer of `SRAM_SIZE` bytes allocated), every battery-RAM write whose
address lies in the `0x6000`-`0x7FFF` window makes a subsequent
`isSramDirty()` call return `true`, and immediately after
`markSramSaved()` the call returns `false`. -/
theorem sram_dirty_write_then_ack (st : CoreState α) (l : List Nat)
    (hb : st.hasBatteryRam = true) (hs : st.sram = some l) (hl : l.length = SRAM_SIZE)
    (address value : Nat) (h1 : 0x6000 ≤ address) (h2 : address ≤ 0x7FFF) :
    isSramDirty (handleBatteryRamWrite st address value) = true ∧
    isSramDirty (markSramSaved (handleBatteryRamWrite st address value)) = false :=
  ⟨dirty_after_window_write st l hb hs hl address value h1 h2,
   isSramDirty_markSramSaved _⟩

/-- C1 witness: a freshly loaded battery core, one write at `0x6000`. -/
theorem sram_dirty_write_then_ack_inst :
    isSramDirty (handleBatteryRamWrite (loadRom unitOps (freshCore ()) []).1 0x6000 5) = true ∧
    isSramDirty (markSramSaved
      (handleBatteryRamWrite (loadRom unitOps (freshCore ()) []).1 0x6000 5)) = false :=
  sram_dirty_write_then_ack (loadRom unitOps (freshCore ()) []).1
    (List.replicate SRAM_SIZE 0) fresh_loaded_battery fresh_loaded_sram (by simp)
    0x6000 5 (by decide) (by decide)

/-- C2 counterexample: the claim "if `isSramDirty()` is true before the
operation it is still true after it" fails for `setSram`, one of the
operations the claim quantifies over: on a reachable battery-backed state
with the dirty flag set, `setSram` clears it (`nes-core.ts` line 219 sets
`this.sramDirty = false`). -/
theorem sram_dirty_cleared_by_setSram :
    isSramDirty dirtyBatteryState = true ∧
    isSramDirty (setSram unitOps dirtyBatteryState (List.replicate SRAM_SIZE 0)) = false :=
  ⟨dirtyBatteryState_dirty,
   isSramDirty_setSram unitOps dirtyBatteryState _ dirtyBatteryState_hasBattery⟩

/-- C2 amended: the dirty flag is preserved by `tick` (whatever battery
writes the emulator fires during the frame), by `reset`, and trivially by
the read-only `getSram`; but besides `markSramSaved` it is also cleared by
`setSram` (on a battery-backed core) and by every successful `loadRom`,
both of which re-synchronise the SRAM buffer with the emulator and restart
dirty tracking. -/
theorem sram_dirty_clearing_operations :
    (∀ (α : Type) (ops : EmuOps α) (st : CoreState α),
      isSramDirty st = true → isSramDirty (tick ops st) = true) ∧
    (∀ (α : Type) (ops : EmuOps α) (st : CoreState α),
      isSramDirty st = true → isSramDirty (resetCore ops st) = true) ∧
    (∀ (α : Type) (st : CoreState α),
      getSram (markSramSaved st) = getSram st) ∧
    (∀ (α : Type) (ops : EmuOps α) (st : CoreState α) (s : List Nat),
      st.hasBatteryRam = true → isSramDirty (setSram ops st s) = false) ∧
    (∀ (α : Type) (ops : EmuOps α) (st : CoreState α) (rom : List Nat),
      (loadRom ops st rom).2 = true → (loadRom ops st rom).1.sramDirty = false) := by
  refine ⟨?_, ?_, ?_, ?_, ?_⟩
  · intro α ops st h
    exact foldl_applyEvent_dirty _ _ h
  · intro α ops st h
    exact h
  · intro α st
    rfl
  · intro α ops st s hb
    exact isSramDirty_setSram ops st s hb
  · intro α ops st rom h
    unfold loadRom at h ⊢
    rcases hload : ops.load st.emu rom with ⟨e, ob⟩
    rw [hload] at h
    cases ob with
    | none => simp at h
    | some battery =>
      cases battery with
      | false => rfl
      | true => rfl

/-- C2 amended witness: the preserved and clearing cases at a concrete
dirty battery-backed state. -/
theorem sram_dirty_clearing_operations_inst :
    isSramDirty (tick unitOps dirtyBatteryState) = true ∧
    isSramDirty (setSram unitOps dirtyBatteryState []) = false :=
  ⟨sram_dirty_clearing_operations.1 Unit unitOps dirtyBatteryState dirtyBatteryState_dirty,
   sram_dirty_clearing_operations.2.2.2.1 Unit unitOps dirtyBatteryState []
     dirtyBatteryState_hasBattery⟩

/-- C3: SRAM round-trip.  On a battery-backed core (size-invariant SRAM
buffer), `setSram(s)` followed by `getSram()` returns exactly the
8192-byte array `s`; moreover bytes produced by any sequence of
battery-window writes, read back via `getSram`, and loaded into another
battery-backed instance via `setSram`, reproduce byte-identical SRAM
state. -/
theorem sram_roundTrip :
    (∀ (α : Type) (ops : EmuOps α) (st : CoreState α) (s : List Nat),
      st.hasBatteryRam = true → sramSized st → s.length = SRAM_SIZE →
      getSram (setSram ops st s) = some s) ∧
    (∀ (α : Type) (ops2 : EmuOps α) (st st2 : CoreState α)
      (ws : List (Nat × Nat)) (r : List Nat),
      st.hasBatteryRam = true → sramSized st →
      st2.hasBatteryRam = true → sramSized st2 →
      getSram (writeMany st ws) = some r →
      getSram (setSram ops2 st2 r) = some r) := by
  constructor
  · intro α ops st s hb hsz hs
    exact setSram_getSram ops st s hb hsz hs
  · intro α ops2 st st2 ws r hb hsz hb2 hsz2 hr
    have hbw : (writeMany st ws).hasBatteryRam = true := by
      rw [writeMany_hasBattery]; exact hb
    have hsram : (writeMany st ws).sram = some r := by
      unfold getSram at hr
      rw [hbw] at hr
      simpa using hr
    have hrlen : r.length = SRAM_SIZE :=
      writeMany_sramSized ws st hsz r hsram
    exact setSram_getSram ops2 st2 r hb2 hsz2 hrlen

/-- C3 witness: write two bytes into the window of a freshly loaded battery
core, read the buffer back, and load it into a second fresh battery core. -/
theorem sram_roundTrip_inst :
    getSram (setSram unitOps (loadRom unitOps (freshCore ()) []).1
      (List.replicate SRAM_SIZE 7)) = some (List.replicate SRAM_SIZE 7) ∧
    (getSram (writeMany (loadRom unitOps (freshCore ()) []).1 [(0x6000, 13), (0x7FFF, 200)]) =
        some (((List.replicate SRAM_SIZE 0).set 0 13).set 0x1FFF 200) →
      getSram (setSram unitOps (loadRom unitOps (freshCore ()) []).1
        (((List.replicate SRAM_SIZE 0).set 0 13).set 0x1FFF 200)) =
        some (((List.replicate SRAM_SIZE 0).set 0 13).set 0x1FFF 200)) :=
  ⟨sram_roundTrip.1 Unit unitOps (loadRom unitOps (freshCore ()) []).1
      (List.replicate SRAM_SIZE 7) fresh_loaded_battery fresh_loaded_sramSized
      (by simp),
   sram_roundTrip.2 Unit unitOps (loadRom unitOps (freshCore ()) []).1
      (loadRom unitOps (freshCore ()) []).1 [(0x6000, 13), (0x7FFF, 200)]
      (((List.replicate SRAM_SIZE 0).set 0 13).set 0x1FFF 200)
      fresh_loaded_battery fresh_loaded_sramSized
      fresh_loaded_battery fresh_loaded_sramSized⟩

/-- C4: `reset()` re-initialises the emulator internals only; for every core
state the SRAM contents, the battery-RAM flag, and the SRAM dirty flag are
exactly what they were before the call. -/
theorem reset_preserves_sram_state :
    ∀ (α : Type) (ops : EmuOps α) (st : CoreState α),
      (resetCore ops st).sram = st.sram ∧
      (resetCore ops st).hasBatteryRam = st.hasBatteryRam ∧
      (resetCore ops st).sramDirty = st.sramDirty ∧
      isSramDirty (resetCore ops st) = isSramDirty st :=
  fun _ _ _ => ⟨rfl, rfl, rfl, rfl⟩

/-- C5: for both core variants, pressing a named button asserts exactly the
controller-1 shift-register bit at that button's position in the
A, B, Select, Start, Up, Down, Left, Right order (A lowest), leaving every
other bit unchanged, and releasing it clears the same bit. -/
theorem setButton_shift_register_bit :
    ∀ (reg : JoypadState) (btn : NesButton),
      (jsnesSetButton reg btn true (buttonBitIndex btn) = true ∧
       jsnesSetButton reg btn false (buttonBitIndex btn) = false ∧
       (∀ j, j ≠ buttonBitIndex btn →
         jsnesSetButton reg btn true j = reg j ∧ jsnesSetButton reg btn false j = reg j)) ∧
      (nativeSetButton reg btn true (buttonBitIndex btn) = true ∧
       nativeSetButton reg btn false (buttonBitIndex btn) = false ∧
       (∀ j, j ≠ buttonBitIndex btn →
         nativeSetButton reg btn true j = reg j ∧ nativeSetButton reg btn false j = reg j)) := by
  intro reg btn
  have hmap := BUTTON_MAP_eq_buttonBitIndex btn
  have hnat := nativeButtonOfIndex_encode btn
  constructor
  · refine ⟨?_, ?_, ?_⟩
    · unfold jsnesSetButton joypadPress
      rw [hmap]
      simp
    · unfold jsnesSetButton joypadRelease
      rw [hmap]
      simp
    · intro j hj
      unfold jsnesSetButton joypadPress joypadRelease
      rw [hmap]
      simp [hj]
  · refine ⟨?_, ?_, ?_⟩
    · unfold nativeSetButton nativePressButton joypadPress
      rw [hnat]
      simp
    · unfold nativeSetButton nativeReleaseButton joypadRelease
      rw [hnat]
      simp
    · intro j hj
      unfold nativeSetButton nativePressButton nativeReleaseButton joypadPress joypadRelease
      rw [hnat]
      simp [hj]

/-- C5 witness: pressing A on an all-clear register asserts bit 0 and leaves
bit 3 (Start's position) clear, on both core variants. -/
theorem setButton_shift_register_bit_inst :
    jsnesSetButton (fun _ => false) .a true 0 = true ∧
    jsnesSetButton (fun _ => false) .a true 3 = false ∧
    nativeSetButton (fun _ => false) .a true 0 = true ∧
    nativeSetButton (fun _ => false) .a true 3 = false :=
  ⟨(setButton_shift_register_bit (fun _ => false) .a).1.1,
   ((setButton_shift_register_bit (fun _ => false) .a).1.2.2 3 (by decide)).1,
   (setButton_shift_register_bit (fun _ => false) .a).2.1,
   ((setButton_shift_register_bit (fun _ => false) .a).2.2.2 3 (by decide)).1⟩

/-- C6 counterexample: the framebuffer returned by `getFrameBuffer()` has
`FRAME_WIDTH * FRAME_HEIGHT` entries, not `FRAME_WIDTH * FRAME_HEIGHT * 3`
one-byte components — its size is `FRAMEBUFFER_SIZE = 256 * 240`
(`nes-core.ts` lines 9 and 140). -/
theorem framebuffer_not_three_byte_entries :
    (getFrameBuffer (freshCore ())).length = FRAME_WIDTH * FRAME_HEIGHT ∧
    (getFrameBuffer (freshCore ())).length ≠ FRAME_WIDTH * FRAME_HEIGHT * 3 := by
  constructor
  · unfold getFrameBuffer freshCore
    simp [FRAMEBUFFER_SIZE]
  · unfold getFrameBuffer freshCore
    simp only [List.length_replicate]
    unfold FRAMEBUFFER_SIZE FRAME_WIDTH FRAME_HEIGHT
    omega

/-- C6 amended: `getFrameBuffer()` returns the current 256x240-pixel frame
as `FRAMEBUFFER_SIZE = 256 * 240` numbers, one per pixel, each packing the
pixel's three RGB colour bytes into 24 bits (red in bits 16-23, green in
8-15, blue in 0-7, as decoded by `renderHalfBlock`); it is not a flat
`256 * 240 * 3` one-byte-per-component buffer (the native-core variant
exposes that flat byte layout instead). -/
theorem framebuffer_packed_rgb :
    (∀ (α : Type) (e : α),
      (getFrameBuffer (freshCore e)).length = FRAME_WIDTH * FRAME_HEIGHT) ∧
    (∀ r g bl : Nat, r < 256 → g < 256 → bl < 256 →
      rgbOfPacked (packedOfRgb r g bl) = (r, g, bl)) ∧
    (∀ c : Nat, c < 2 ^ 24 →
      packedOfRgb (rgbOfPacked c).1 (rgbOfPacked c).2.1 (rgbOfPacked c).2.2 = c) := by
  refine ⟨?_, ?_, ?_⟩
  · intro α e
    unfold getFrameBuffer freshCore
    simp [FRAMEBUFFER_SIZE]
  · intro r g bl hr hg hbl
    unfold rgbOfPacked packedOfRgb
    rw [Nat.shiftRight_eq_div_pow, Nat.shiftRight_eq_div_pow,
      Nat.and_pow_two_sub_one_eq_mod _ 8, Nat.and_pow_two_sub_one_eq_mod _ 8,
      Nat.and_pow_two_sub_one_eq_mod _ 8]
    simp only [Prod.mk.injEq]
    norm_num
    omega
  · intro c hc
    unfold rgbOfPacked packedOfRgb
    rw [Nat.shiftRight_eq_div_pow, Nat.shiftRight_eq_div_pow,
      Nat.and_pow_two_sub_one_eq_mod _ 8, Nat.and_pow_two_sub_one_eq_mod _ 8,
      Nat.and_pow_two_sub_one_eq_mod _ 8]
    norm_num
    omega

/-- C6 amended witness: the codec at one concrete pixel. -/
theorem framebuffer_packed_rgb_inst :
    rgbOfPacked (packedOfRgb 17 33 255) = (17, 33, 255) :=
  framebuffer_packed_rgb.2.1 17 33 255 (by decide) (by decide) (by decide)

/-- C7: when the underlying ROM parse throws, `loadRom` retains no partial
cartridge state — the SRAM buffer, the battery-RAM flag, the SRAM dirty
flag (and the framebuffer) hold exactly their prior values — and the error
propagates to the caller. -/
theorem loadRom_failure_preserves_state :
    ∀ (α : Type) (ops : EmuOps α) (st : CoreState α) (rom : List Nat),
      (ops.load st.emu rom).2 = none →
      (loadRom ops st rom).1.sram = st.sram ∧
      (loadRom ops st rom).1.hasBatteryRam = st.hasBatteryRam ∧
      (loadRom ops st rom).1.sramDirty = st.sramDirty ∧
      (loadRom ops st rom).1.frameBuffer = st.frameBuffer ∧
      (loadRom ops st rom).2 = false := by
  intro α ops st rom h
  unfold loadRom
  rcases hload : ops.load st.emu rom with ⟨e, ob⟩
  rw [hload] at h
  simp only at h
  subst h
  exact ⟨rfl, rfl, rfl, rfl, rfl⟩

/-- C7 witness: a throwing load on a fresh core. -/
theorem loadRom_failure_preserves_state_inst :
    (loadRom unitOpsFail (freshCore ()) [0, 1]).1.sram = (freshCore ()).sram ∧
    (loadRom unitOpsFail (freshCore ()) [0, 1]).1.hasBatteryRam =
      (freshCore ()).hasBatteryRam ∧
    (loadRom unitOpsFail (freshCore ()) [0, 1]).1.sramDirty = (freshCore ()).sramDirty ∧
    (loadRom unitOpsFail (freshCore ()) [0, 1]).1.frameBuffer = (freshCore ()).frameBuffer ∧
    (loadRom unitOpsFail (freshCore ()) [0, 1]).2 = false :=
  loadRom_failure_preserves_state Unit unitOpsFail (freshCore ()) [0, 1] rfl

/-- C8: with the emulator modelled as deterministic per spec §5, two fresh
cores loaded with the same ROM bytes and fed identical command sequences
have byte-identical framebuffers and SRAM after every prefix of the run,
and the power-up framebuffer and freshly allocated battery SRAM are pinned
to the all-zero pattern. -/
theorem core_determinism_and_powerup_zero :
    ∀ (α : Type) (ops : EmuOps α) (emu0 : α) (rom1 rom2 : List Nat)
      (cmds1 cmds2 : List CoreCmd),
      rom1 = rom2 → cmds1 = cmds2 →
      (∀ n : Nat,
        getFrameBuffer (runCmds ops (loadRom ops (freshCore emu0) rom1).1 (cmds1.take n)) =
          getFrameBuffer (runCmds ops (loadRom ops (freshCore emu0) rom2).1 (cmds2.take n)) ∧
        getSram (runCmds ops (loadRom ops (freshCore emu0) rom1).1 (cmds1.take n)) =
          getSram (runCmds ops (loadRom ops (freshCore emu0) rom2).1 (cmds2.take n))) ∧
      getFrameBuffer (freshCore emu0) = List.replicate FRAMEBUFFER_SIZE 0 ∧
      ((loadRom ops (freshCore emu0) rom1).1.hasBatteryRam = true →
        (loadRom ops (freshCore emu0) rom1).1.sram = some (List.replicate SRAM_SIZE 0)) := by
  intro α ops emu0 rom1 rom2 cmds1 cmds2 hrom hcmds
  subst hrom
  subst hcmds
  refine ⟨fun n => ⟨rfl, rfl⟩, rfl, ?_⟩
  intro hb
  unfold loadRom at hb ⊢
  rcases hload : ops.load (freshCore emu0).emu rom1 with ⟨e, ob⟩
  rw [hload] at hb
  cases ob with
  | none => simp [freshCore] at hb
  | some battery =>
    cases battery with
    | false => simp [freshCore] at hb
    | true => rfl

/-- C8 witness: the trivial battery emulator on an empty ROM and command
list. -/
theorem core_determinism_and_powerup_zero_inst :
    getFrameBuffer (freshCore ()) = List.replicate FRAMEBUFFER_SIZE 0 ∧
    (loadRom unitOps (freshCore ()) []).1.sram = some (List.replicate SRAM_SIZE 0) :=
  ⟨(core_determinism_and_powerup_zero Unit unitOps () [] [] [] [] rfl rfl).2.1,
   (core_determinism_and_powerup_zero Unit unitOps () [] [] [] [] rfl rfl).2.2 rfl⟩

/-- C9: on a core whose loaded cartridge has no battery-backed RAM,
`getSram()` returns null, `setSram()` is a no-op leaving the whole state
unchanged, `isSramDirty()` returns false, and battery-RAM writes are
ignored — so the dirty flag stays false regardless of prior writes. -/
theorem nonBattery_sram_interface :
    ∀ (α : Type) (ops : EmuOps α) (st : CoreState α),
      st.hasBatteryRam = false →
      getSram st = none ∧
      (∀ s, setSram ops st s = st) ∧
      isSramDirty st = false ∧
      (∀ a v, handleBatteryRamWrite st a v = st) := by
  intro α ops st hb
  refine ⟨?_, ?_, ?_, ?_⟩
  · unfold getSram
    rw [hb]
    rfl
  · intro s
    unfold setSram
    rw [hb]
    rfl
  · unfold isSramDirty
    rw [hb]
    rfl
  · intro a v
    unfold handleBatteryRamWrite
    rw [hb]
    rfl

/-- C9 witness: the fresh core (no cartridge, hence no battery RAM). -/
theorem nonBattery_sram_interface_inst :
    getSram (freshCore ()) = none ∧
    setSram unitOps (freshCore ()) [1, 2, 3] = freshCore () ∧
    isSramDirty (freshCore ()) = false ∧
    handleBatteryRamWrite (freshCore ()) 0x6000 9 = freshCore () := by
  have h := nonBattery_sram_interface Unit unitOps (freshCore ()) rfl
  exact ⟨h.1, h.2.1 [1, 2, 3], h.2.2.1, h.2.2.2 0x6000 9⟩

/-- C10: on every `NesSession.tick` invocation, the number of `core.tick()`
calls is between 0 and `maxCatchUpFrames` (default 12); whenever the frames
due exceed that cap the accumulated-time debt is reset to zero, and when
the due count is within the cap the accumulator after the tick is strictly
less than `frameIntervalMs`. -/
theorem sessionTick_catchUp_bounds :
    ∀ (i : ℚ) (m : Int) (acc delta : ℚ),
      0 < i → 0 ≤ m → 0 ≤ acc → 0 ≤ delta →
      (0 ≤ (sessionTick i m acc delta).2 ∧ (sessionTick i m acc delta).2 ≤ m) ∧
      (m < ⌊(acc + delta) / i⌋ → (sessionTick i m acc delta).1 = 0) ∧
      (⌊(acc + delta) / i⌋ ≤ m → (sessionTick i m acc delta).1 < i) ∧
      DEFAULT_MAX_CATCH_UP_FRAMES = 12 := by
  intro i m acc delta hi hm hacc hdelta
  have hsum : 0 ≤ acc + delta := by linarith
  simp only [sessionTick]
  split
  · rename_i hdue
    refine ⟨⟨le_refl 0, hm⟩, ?_, ?_, rfl⟩
    · intro hlt
      exact absurd (lt_of_le_of_lt hm hlt) (not_lt.mpr hdue)
    · intro _
      have h1 : ⌊(acc + delta) / i⌋ < (1 : Int) := lt_of_le_of_lt hdue (by norm_num)
      have h2 : (acc + delta) / i < ((1 : Int) : ℚ) := Int.floor_lt.mp h1
      have h3 : (acc + delta) / i < 1 := by
        simpa using h2
      exact (div_lt_one hi).mp h3
  · split
    · rename_i hdue hover
      refine ⟨⟨hm, le_refl m⟩, fun _ => rfl, ?_, rfl⟩
      intro hle
      exact absurd hover (not_lt.mpr hle)
    · rename_i hdue hover
      push_neg at hdue hover
      refine ⟨⟨le_of_lt hdue, hover⟩, ?_, ?_, rfl⟩
      · intro hlt
        exact absurd hlt (not_lt.mpr hover)
      · intro _
        have h1 : (acc + delta) / i < (⌊(acc + delta) / i⌋ : ℚ) + 1 :=
          Int.lt_floor_add_one _
        have h2 : acc + delta < ((⌊(acc + delta) / i⌋ : ℚ) + 1) * i :=
          (div_lt_iff₀ hi).mp h1
        nlinarith [h2]

/-- C10 witness: interval 1ms, cap 12, no prior debt, 20ms elapsed. -/
theorem sessionTick_catchUp_bounds_inst :
    (0 : ℚ) < 1 ∧
    ((0 ≤ (sessionTick 1 12 0 20).2 ∧ (sessionTick 1 12 0 20).2 ≤ 12) ∧
     (12 < ⌊((0 : ℚ) + 20) / 1⌋ → (sessionTick 1 12 0 20).1 = 0) ∧
     (⌊((0 : ℚ) + 20) / 1⌋ ≤ 12 → (sessionTick 1 12 0 20).1 < 1) ∧
     DEFAULT_MAX_CATCH_UP_FRAMES = 12) :=
  ⟨by decide,
   sessionTick_catchUp_bounds 1 12 0 20 (by decide) (by decide) (by decide) (by decide)⟩

end PiNes
